import Mathlib

/-!
Verification of the ForkFS sandbox lifecycle manager (SUPERCILEX/forkfs).

The development shallowly embeds the converged implementation found in
`src/sessions.rs`, `src/run.rs`, `src/main.rs` and the `path_undo` module of
`src/lib.rs`.  Filesystem paths are modelled as lists of components of an
absolute path (`[]` is the real root `/`).  Kernel state relevant to the
program (which paths exist, which paths are mount points) is modelled by the
`Kernel` structure; `statx` with `StatxFlags::MNT_ID` is modelled by
`statxMnt`, which reports the innermost enclosing mount point of a path as
its mount id.  Fallible operations return `Except Report _` where `Report`
mirrors an `error_stack::Report`: the current context kind plus the attached
printable strings.  Mount-related syscalls performed by an operation are
recorded in a `SysCall` trace.
-/

namespace Forkfs

/-- Components of an absolute filesystem path; `[]` is the root `/`.
`PathBuf::push` of a single normal component appends, `PathBuf::pop` drops
the last component. -/
abbrev FsPath := List String

/-- Rendering of an absolute path, as produced by `Path::display` in
`start_session` (`src/sessions.rs`): components joined by `/` with a leading
separator. -/
def display (p : FsPath) : String :=
  p.foldl (fun acc c => acc ++ "/" ++ c) ""

/-- Rendering of a path by the `{:?}` (Debug) format used in the error
context strings: the displayed path wrapped in double quotes. -/
def dbgPath (p : FsPath) : String :=
  "\"" ++ display p ++ "\""

/-- Error kinds of the converged crate, as used by `src/sessions.rs` and
`src/run.rs` (`Error::Io`, `Error::InvalidArgument`, `Error::SessionNotFound`,
`Error::SetupRequired`); spec section 3 lists the same closed set. -/
inductive Error where
  | Io
  | InvalidArgument
  | SessionNotFound
  | SetupRequired
deriving DecidableEq, Repr

/-- An `error_stack::Report`: the current context kind (the most recent
`change_context`) together with the attached printable strings. -/
structure Report where
  kind : Error
  msgs : List String
deriving DecidableEq, Repr

/-- Outcome of a `statx` call in the model: it either succeeds or fails with
not-found (`ErrorKind::NotFound`) or some other error kind. -/
inductive StatErr where
  | notFound
  | other
deriving DecidableEq, Repr

/-- A mount id (`stx_mnt_id`): in the kernel model, the innermost mount
point containing the path identifies the mount, so the mount-point path
itself serves as the id. -/
abbrev MntId := List String

/-- The kernel state the program manipulates: which paths exist on disk and
the table of mount points (most recently mounted first). -/
structure Kernel where
  present : FsPath → Bool
  mounts : List FsPath

/-- The mount id of a path: the longest mount-point prefix of the path
(the innermost enclosing mount), the root `[]` when no mount encloses it. -/
def mntId (mounts : List FsPath) (p : FsPath) : FsPath :=
  (mounts.filter (fun q => decide (q <+: p))).foldl
    (fun a q => if a.length < q.length then q else a) []

/-- Model of `statx(cwd(), p, AtFlags::empty(), StatxFlags::MNT_ID)`:
not-found when the path does not exist, otherwise the mount id. -/
def statxMnt (k : Kernel) (p : FsPath) : Except StatErr MntId :=
  if k.present p then .ok (mntId k.mounts p) else .error .notFound

/-- Embedding of `is_active_session` (`src/sessions.rs`), parametrised by the
`statx` oracle `stx`.  It stats `<session>/merged` first; a not-found error
with `must_exist = false` reports inactive, any other error on `merged` is
wrapped as Io and then `change_context`-ed to `SessionNotFound`.  It then
stats `<session>` itself (errors there stay Io) and reports active iff the
two mount ids differ. -/
def is_active_session (stx : FsPath → Except StatErr MntId)
    (session : FsPath) (must_exist : Bool) : Except Report Bool :=
  match stx (session ++ ["merged"]) with
  | .error e =>
    if !must_exist && e == .notFound then
      .ok false
    else
      .error { kind := .SessionNotFound
               msgs := ["Failed to stat " ++ dbgPath (session ++ ["merged"])] }
  | .ok mnt =>
    match stx session with
    | .error _ =>
      .error { kind := .Io, msgs := ["Failed to stat " ++ dbgPath session] }
    | .ok parent_mount => .ok (parent_mount != mnt)

/-- Claim C1: for every sandbox directory, `is_active_session` reports active
iff the mount id returned by `statx` for `<dir>/merged` differs from the
mount id returned for `<dir>`; with `must_exist = false` a not-found on
`merged` reports inactive; with `must_exist = true` a not-found on `merged`
becomes an error of kind `SessionNotFound`. -/
theorem is_active_session_spec (stx : FsPath → Except StatErr MntId)
    (session : FsPath) :
    (∀ (b : Bool) (m p : MntId),
      stx (session ++ ["merged"]) = .ok m → stx session = .ok p →
      is_active_session stx session b = .ok (p != m)) ∧
    (stx (session ++ ["merged"]) = .error .notFound →
      is_active_session stx session false = .ok false) ∧
    (stx (session ++ ["merged"]) = .error .notFound →
      ∃ r, is_active_session stx session true = .error r ∧
        r.kind = .SessionNotFound) := by
  refine ⟨?_, ?_, ?_⟩
  · intro b m p hm hp
    simp [is_active_session, hm, hp]
  · intro hm
    simp [is_active_session, hm]
  · intro hm
    exact ⟨{ kind := .SessionNotFound
             msgs := ["Failed to stat " ++ dbgPath (session ++ ["merged"])] },
      by simp [is_active_session, hm], rfl⟩

/-- A concrete statx oracle for the activity-probe witness: the sandbox
directory `/tmp/forkfs/a` sits on the root mount while its `merged` child is
its own mount point. -/
def stxW : FsPath → Except StatErr MntId := fun p =>
  if p = ["tmp", "forkfs", "a", "merged"] then .ok ["tmp", "forkfs", "a", "merged"]
  else if p = ["tmp", "forkfs", "a"] then .ok []
  else if p = ["tmp", "forkfs", "gone"] then .ok []
  else .error .notFound

theorem is_active_session_spec_witness :
    (is_active_session stxW ["tmp", "forkfs", "a"] true = .ok true) ∧
    (is_active_session stxW ["tmp", "forkfs", "gone"] false = .ok false) ∧
    (∃ r, is_active_session stxW ["tmp", "forkfs", "gone"] true = .error r ∧
      r.kind = .SessionNotFound) := by
  obtain ⟨h1, _, _⟩ := is_active_session_spec stxW ["tmp", "forkfs", "a"]
  obtain ⟨_, h2, h3⟩ := is_active_session_spec stxW ["tmp", "forkfs", "gone"]
  exact ⟨h1 true ["tmp", "forkfs", "a", "merged"] [] rfl rfl, h2 rfl, h3 rfl⟩

/-! ### Scoped path builder (`path_undo::TmpPath`, `src/lib.rs`) -/

/-- Embedding of `TmpPath::new`: pushing the child component onto the
borrowed path buffer. -/
def tmpPath_push (path : FsPath) (child : String) : FsPath :=
  path ++ [child]

/-- Embedding of the `Drop` impl of `TmpPath`: `self.pop()` removes the last
component of the buffer (and leaves the root unchanged, like
`PathBuf::pop`). -/
def tmpPath_pop (path : FsPath) : FsPath :=
  path.dropLast

/-- A scope that borrows the buffer through a `TmpPath`: the body observes
the joined path, and the handle's drop code runs on every exit path, whether
the body returned `Ok` or `Err`. -/
def withTmpPath {ε α : Type} (path : FsPath) (child : String)
    (body : FsPath → Except ε α) : Except ε α × FsPath :=
  let joined := tmpPath_push path child
  (body joined, tmpPath_pop joined)

/-- Claim C8: for every path buffer and child component, the scoped handle
presents the joined path while live, and releasing it truncates the buffer
by exactly one component, so the buffer is identical before and after the
scope regardless of whether the body succeeded or failed. -/
theorem tmpPath_scope_spec {ε α : Type} (path : FsPath) (child : String)
    (body : FsPath → Except ε α) :
    (withTmpPath path child body).1 = body (path ++ [child]) ∧
    (withTmpPath path child body).2 = path := by
  exact ⟨rfl, by simp [withTmpPath, tmpPath_pop, tmpPath_push]⟩

/-! ### Command construction and UID downgrade (`run_command`) -/

/-- The program run by `run_command` (`src/run.rs` line 45 and `src/lib.rs`
line 134): `Command::new(args[0].as_ref())`.  The slice index `args[0]` is
an unchecked index: `none` models the out-of-bounds panic on an empty slice
(undefined behaviour of the operation, not a returned error). -/
def run_command_program (args : List String) : Option String :=
  args[0]?

/-- The argument list passed by `run_command`: `command.args(&args[1..])`. -/
def run_command_args (args : List String) : List String :=
  args.drop 1

/-- Claim C10: `run_command` requires a non-empty command list: it
unconditionally indexes the first element, so the empty slice has no defined
result (a panic, modelled as `none`, rather than a returned error), and for
every non-empty slice the first element becomes the program and the rest its
arguments. -/
theorem run_command_nonempty_spec :
    run_command_program [] = none ∧
    ∀ (p : String) (rest : List String),
      run_command_program (p :: rest) = some p ∧
      run_command_args (p :: rest) = rest := by
  exact ⟨rfl, fun p rest => ⟨by simp [run_command_program], rfl⟩⟩

/-- Rust `str::parse::<u32>`: an optional leading `+`, then at least one
ASCII digit and nothing else, with the value bounded by `u32::MAX`. -/
def rustParseU32 (s : String) : Option Nat :=
  let cs : List Char :=
    match s.data with
    | '+' :: rest => rest
    | cs => cs
  if cs.isEmpty then none
  else if cs.all (fun c => c.isDigit) then
    let n := cs.foldl (fun a c => a * 10 + (c.toNat - 48)) 0
    if n < 4294967296 then some n else none
  else none

/-- The UID, if any, that `run_command` (`src/run.rs` lines 47-55) sets on
the child command: with `stay_root` false, the pre-elevation UID when the
real UID is non-root, otherwise the parsed `SUDO_UID` environment value when
present; with `stay_root` true, none. -/
def downgrade_uid (stay_root : Bool) (prev_uid : Nat) (sudo_uid : Option String) :
    Option Nat :=
  if !stay_root then
    if prev_uid != 0 then some prev_uid
    else
      match sudo_uid with
      | some s =>
        match rustParseU32 s with
        | some uid => some uid
        | none => none
      | none => none
  else none

/-- Long option names the `run` subcommand declares in `src/main.rs`
(struct `Run`: the `--session` option with long aliases `--name` and `--id`,
the positional `command` operand, and the global `--help` of the top-level
parser).  No other long flags are declared for `run`. -/
def runCliLongFlags : List String :=
  ["session", "name", "id", "help"]

/-- Claim C9 (code bug): the `Run` CLI declaration in `src/main.rs` accepts
no `--stay-root` flag (and calls the library `run` without a `stay_root`
argument), although `run.rs` implements the flag's documented semantics:
with `stay_root` false the exec'd command's UID is downgraded to the real
UID when it is non-root, else to a parsed `SUDO_UID`; with `stay_root` true
no downgrade happens. -/
theorem run_stay_root_flag_code_bug :
    runCliLongFlags.contains "stay-root" = false ∧
    downgrade_uid false 1000 none = some 1000 ∧
    downgrade_uid false 0 (some "1000") = some 1000 ∧
    downgrade_uid true 0 (some "1000") = none := by
  decide

/-! ### Mount assembly and teardown (`start_session`, `stop_session`) -/

/-- The mount-related syscalls issued by the session lifecycle, as recorded
in a trace: the overlay `mount`, `recursive_bind_mount`, `change_mount`
(with its `SLAVE` and `REC` propagation bits) and `unmount` (with its
`DETACH` bit). -/
inductive SysCall where
  | mount (source : String) (target : FsPath) (fstype : String) (data : String)
  | recursive_bind_mount (source : String) (target : FsPath)
  | change_mount (target : FsPath) (slave recursive : Bool)
  | unmount (target : FsPath) (detach : Bool)
deriving DecidableEq, Repr

/-- Kernel semantics of mounting at a target: the target path must exist;
the new mount point goes on top of the mount table. -/
def mountAt (k : Kernel) (target : FsPath) : Option Kernel :=
  if k.present target then some { k with mounts := target :: k.mounts } else none

/-- Kernel semantics of changing mount propagation: the target must be a
mount point; the propagation bits are not tracked in the state. -/
def changeMountAt (k : Kernel) (target : FsPath) : Option Kernel :=
  if target ∈ k.mounts then some k else none

/-- Kernel semantics of unmounting: the target must be a mount point; its
most recent mount table entry is removed. -/
def unmountAt (k : Kernel) (target : FsPath) : Option Kernel :=
  if target ∈ k.mounts then some { k with mounts := k.mounts.erase target } else none

/-- The overlay options string built by `start_session` (`src/sessions.rs`
lines 83-98): `lowerdir=/,` then `upperdir=<dir>/diff,` then
`workdir=<dir>/work`, the two sub-paths formed with `TmpPath`. -/
def overlayOptions (dir : FsPath) : String :=
  "lowerdir=/," ++ ("upperdir=" ++ display (dir ++ ["diff"]) ++ ",")
    ++ ("workdir=" ++ display (dir ++ ["work"]))

/-- Whether `CString::new` rejects the byte string: true iff it contains an
interior NUL byte (a NUL byte occurs in the UTF-8 encoding iff the NUL
character occurs). -/
def hasNulByte (s : String) : Bool :=
  s.data.any (fun c => c.toNat == 0)

/-- The per-directory bind-mount loop of `start_session` (`src/sessions.rs`
lines 110-119): for each `(source, target)` pair, `recursive_bind_mount`
the source onto `<merged>/<target>`, then immediately `change_mount` that
target to `SLAVE | REC`.  Errors are wrapped as Io with the code's context
strings; the returned trace lists the syscalls issued. -/
def bindSeq : Kernel → FsPath → List (String × String) →
    (Except Report Kernel) × List SysCall
  | k, _, [] => (.ok k, [])
  | k, merged, (src, name) :: rest =>
    let target := merged ++ [name]
    match mountAt k target with
    | none =>
      (.error { kind := .Io, msgs := ["Failed to bind mount directory " ++ dbgPath target] },
       [.recursive_bind_mount src target])
    | some k1 =>
      match changeMountAt k1 target with
      | none =>
        (.error { kind := .Io, msgs := ["Failed to enslave mount " ++ dbgPath target] },
         [.recursive_bind_mount src target, .change_mount target true true])
      | some k2 =>
        let next := bindSeq k2 merged rest
        (next.1, .recursive_bind_mount src target :: .change_mount target true true :: next.2)

/-- Embedding of `start_session` (`src/sessions.rs` lines 74-122): build the
overlay options string (an interior NUL fails with `InvalidArgument` before
any mount), mount filesystem type `overlay` with source `overlay` at
`<dir>/merged` with those options, then bind-mount and enslave each of
`/proc`, `/dev`, `/run`, `/tmp` in that order. -/
def start_session (k : Kernel) (dir : FsPath) :
    (Except Report Kernel) × List SysCall :=
  let command := overlayOptions dir
  if hasNulByte command then
    (.error { kind := .InvalidArgument, msgs := ["Invalid path bytes"] }, [])
  else
    let merged := dir ++ ["merged"]
    match mountAt k merged with
    | none =>
      (.error { kind := .Io, msgs := ["Failed to mount directory " ++ dbgPath merged] },
       [.mount "overlay" merged "overlay" command])
    | some k1 =>
      let next := bindSeq k1 merged
        [("/proc", "proc"), ("/dev", "dev"), ("/run", "run"), ("/tmp", "tmp")]
      (next.1, .mount "overlay" merged "overlay" command :: next.2)

/-- The syscall trace of a fully successful `start_session` on `dir`. -/
def startTrace (dir : FsPath) : List SysCall :=
  let merged := dir ++ ["merged"]
  [ .mount "overlay" merged "overlay" (overlayOptions dir),
    .recursive_bind_mount "/proc" (merged ++ ["proc"]),
    .change_mount (merged ++ ["proc"]) true true,
    .recursive_bind_mount "/dev" (merged ++ ["dev"]),
    .change_mount (merged ++ ["dev"]) true true,
    .recursive_bind_mount "/run" (merged ++ ["run"]),
    .change_mount (merged ++ ["run"]) true true,
    .recursive_bind_mount "/tmp" (merged ++ ["tmp"]),
    .change_mount (merged ++ ["tmp"]) true true ]

/-- On success, the bind-mount loop issues exactly the bind and enslave
calls for its list, in order. -/
theorem bindSeq_ok_trace : ∀ (binds : List (String × String)) (k : Kernel)
    (merged : FsPath) (k' : Kernel), (bindSeq k merged binds).1 = .ok k' →
    (bindSeq k merged binds).2 = binds.foldr
      (fun sn acc => .recursive_bind_mount sn.1 (merged ++ [sn.2]) ::
        .change_mount (merged ++ [sn.2]) true true :: acc) [] := by
  intro binds
  induction binds with
  | nil => intro k merged k' _; rfl
  | cons hd rest ih =>
    intro k merged k' h
    obtain ⟨src, name⟩ := hd
    simp only [bindSeq] at h ⊢
    cases hm : mountAt k (merged ++ [name]) with
    | none => simp [hm] at h
    | some k1 =>
      simp only [hm] at h ⊢
      cases hc : changeMountAt k1 (merged ++ [name]) with
      | none => simp [hc] at h
      | some k2 =>
        simp only [hc] at h ⊢
        simp only [List.foldr_cons, List.cons.injEq, true_and]
        exact ih k2 merged k' h

/-- Claim C2: `start_session` builds the options string exactly
`lowerdir=/,upperdir=<dir>/diff,workdir=<dir>/work` (the lower layer is
always the real root `/`); an options string with an interior NUL byte
fails with `InvalidArgument` before any mount; and on success the syscalls
are exactly: the overlay mount at `<dir>/merged` with those options, then,
for `proc`, `dev`, `run`, `tmp` in that order, a recursive bind mount of
`/<name>` onto `<dir>/merged/<name>` immediately followed by a propagation
change of that mount to `SLAVE | REC`. -/
theorem start_session_spec (k : Kernel) (dir : FsPath) :
    (overlayOptions dir =
      "lowerdir=/,upperdir=" ++ display (dir ++ ["diff"]) ++
        ",workdir=" ++ display (dir ++ ["work"])) ∧
    (hasNulByte (overlayOptions dir) = true →
      start_session k dir =
        (.error { kind := .InvalidArgument, msgs := ["Invalid path bytes"] }, [])) ∧
    (∀ k', (start_session k dir).1 = .ok k' →
      (start_session k dir).2 = startTrace dir) := by
  refine ⟨?_, ?_, ?_⟩
  · have h1 : ("lowerdir=/,upperdir=" : String) = "lowerdir=/," ++ "upperdir=" := rfl
    have h2 : (",workdir=" : String) = "," ++ "workdir=" := rfl
    rw [h1, h2]
    simp only [overlayOptions, String.append_assoc]
  · intro hnul
    simp [start_session, hnul]
  · intro k' h
    simp only [start_session] at h ⊢
    cases hnul : hasNulByte (overlayOptions dir) with
    | true => simp [hnul] at h
    | false =>
      simp only [hnul, Bool.false_eq_true, if_false] at h ⊢
      cases hm : mountAt k (dir ++ ["merged"]) with
      | none => simp [hm] at h
      | some k1 =>
        simp only [hm] at h ⊢
        have := bindSeq_ok_trace
          [("/proc", "proc"), ("/dev", "dev"), ("/run", "run"), ("/tmp", "tmp")]
          k1 (dir ++ ["merged"]) k' h
        simp only [this, startTrace, List.foldr_cons, List.foldr_nil]

/-- A kernel in which every path exists and nothing is mounted. -/
def allK : Kernel :=
  { present := fun _ => true, mounts := [] }

/-- The kernel state after a successful `start_session allK ["s"]`: the
overlay at `merged` and the four pseudo-filesystem binds, most recent
first. -/
def startK : Kernel :=
  { present := fun _ => true
    mounts := [["s", "merged", "tmp"], ["s", "merged", "run"],
               ["s", "merged", "dev"], ["s", "merged", "proc"], ["s", "merged"]] }

theorem start_session_spec_witness :
    (start_session allK ["s"]).2 = startTrace ["s"] ∧
    start_session allK ["s\x00"] =
      (.error { kind := Error.InvalidArgument, msgs := ["Invalid path bytes"] }, []) := by
  exact ⟨(start_session_spec allK ["s"]).2.2 startK rfl,
    (start_session_spec allK ["s\x00"]).2.1 rfl⟩

/-- The unmount loop shared by the teardown path: unmount each target in
order with the given `DETACH` flag, recording the calls; a failure is
wrapped as Io with the code's context string. -/
def unmountSeq : Kernel → List (FsPath × Bool) →
    (Except Report Kernel) × List SysCall
  | k, [] => (.ok k, [])
  | k, (p, detach) :: rest =>
    match unmountAt k p with
    | none =>
      (.error { kind := .Io, msgs := ["Failed to unmount directory " ++ dbgPath p] },
       [.unmount p detach])
    | some k1 =>
      let next := unmountSeq k1 rest
      (next.1, .unmount p detach :: next.2)

/-- The unmount targets of `stop_session` (`src/sessions.rs` lines
129-138): `<session>/merged/<name>` for each of `proc`, `dev`, `run`,
`tmp` with `UnmountFlags::DETACH`, then `<session>/merged` itself with
empty flags. -/
def stopTargets (session : FsPath) : List (FsPath × Bool) :=
  let merged := session ++ ["merged"]
  [ (merged ++ ["proc"], true),
    (merged ++ ["dev"], true),
    (merged ++ ["run"], true),
    (merged ++ ["tmp"], true),
    (merged, false) ]

/-- Embedding of `stop_session` (`src/sessions.rs` lines 124-139): probe the
session with `must_exist = true`; when inactive return at once without any
unmount; when active lazily unmount the four pseudo-filesystem binds under
`merged`, then unmount `merged` with normal semantics. -/
def stop_session (k : Kernel) (session : FsPath) :
    (Except Report Kernel) × List SysCall :=
  match is_active_session (statxMnt k) session true with
  | .error r => (.error r, [])
  | .ok false => (.ok k, [])
  | .ok true => unmountSeq k (stopTargets session)

/-- On success, the unmount loop issues exactly one unmount call per target,
in order, with the target's detach flag. -/
theorem unmountSeq_ok_trace : ∀ (ts : List (FsPath × Bool)) (k k' : Kernel),
    (unmountSeq k ts).1 = .ok k' →
    (unmountSeq k ts).2 = ts.map (fun pd => SysCall.unmount pd.1 pd.2) := by
  intro ts
  induction ts with
  | nil => intro k k' _; rfl
  | cons hd rest ih =>
    intro k k' h
    obtain ⟨p, detach⟩ := hd
    simp only [unmountSeq] at h ⊢
    cases hu : unmountAt k p with
    | none => simp [hu] at h
    | some k1 =>
      simp only [hu] at h ⊢
      simp only [List.map_cons, List.cons.injEq, true_and]
      exact ih k1 k' h

/-- Claim C3: on an active sandbox, a successful `stop_session` unmounts
the pseudo-filesystem binds before the union mount: it unmounts
`<dir>/merged/<name>` for `proc`, `dev`, `run`, `tmp` in that order with
detach (lazy) semantics, and only afterwards unmounts `<dir>/merged` with
normal (non-detach) semantics, so a busy union mount surfaces an error
rather than being lazily detached. -/
theorem stop_session_unmount_order (k : Kernel) (session : FsPath) (k' : Kernel)
    (hact : is_active_session (statxMnt k) session true = .ok true)
    (hok : (stop_session k session).1 = .ok k') :
    (stop_session k session).2 =
      [ .unmount (session ++ ["merged"] ++ ["proc"]) true,
        .unmount (session ++ ["merged"] ++ ["dev"]) true,
        .unmount (session ++ ["merged"] ++ ["run"]) true,
        .unmount (session ++ ["merged"] ++ ["tmp"]) true,
        .unmount (session ++ ["merged"]) false ] := by
  have hs : stop_session k session = unmountSeq k (stopTargets session) := by
    simp [stop_session, hact]
  rw [hs] at hok ⊢
  rw [unmountSeq_ok_trace (stopTargets session) k k' hok]
  rfl

/-- A concrete active-session kernel for the teardown witnesses: everything
exists, the overlay and the four binds of session `["s"]` are mounted. -/
def stopK : Kernel := startK

theorem stop_session_unmount_order_witness :
    (stop_session stopK ["s"]).2 =
      [ .unmount (["s"] ++ ["merged"] ++ ["proc"]) true,
        .unmount (["s"] ++ ["merged"] ++ ["dev"]) true,
        .unmount (["s"] ++ ["merged"] ++ ["run"]) true,
        .unmount (["s"] ++ ["merged"] ++ ["tmp"]) true,
        .unmount (["s"] ++ ["merged"]) false ] :=
  stop_session_unmount_order stopK ["s"] { present := fun _ => true, mounts := [] }
    rfl rfl

/-- State facts about a successful unmount loop: it never touches the
existence map, only removes mount entries, and (when the mount table has no
duplicate entries) leaves none of its targets mounted. -/
theorem unmountSeq_ok_state : ∀ (ts : List (FsPath × Bool)) (k k' : Kernel),
    (unmountSeq k ts).1 = .ok k' →
    k'.present = k.present ∧ k'.mounts ⊆ k.mounts ∧
    (k.mounts.Nodup → k'.mounts.Nodup ∧ ∀ pd ∈ ts, pd.1 ∉ k'.mounts) := by
  intro ts
  induction ts with
  | nil =>
    intro k k' h
    simp only [unmountSeq, Except.ok.injEq] at h
    subst h
    exact ⟨rfl, fun _ hx => hx, fun hnd => ⟨hnd, by simp⟩⟩
  | cons hd rest ih =>
    intro k k' h
    obtain ⟨p, d⟩ := hd
    simp only [unmountSeq] at h
    cases hu : unmountAt k p with
    | none => simp [hu] at h
    | some k1 =>
      simp only [hu] at h
      have hk1 : k1.present = k.present ∧ k1.mounts = k.mounts.erase p := by
        simp only [unmountAt] at hu
        split at hu
        · injection hu with hu
          subst hu
          exact ⟨rfl, rfl⟩
        · cases hu
      obtain ⟨hk1p, hk1m⟩ := hk1
      obtain ⟨hpres, hsub, hrest⟩ := ih k1 k' h
      refine ⟨hpres.trans hk1p, ?_, ?_⟩
      · intro x hx
        have hx1 : x ∈ k.mounts.erase p := hk1m ▸ hsub hx
        exact List.mem_of_mem_erase hx1
      · intro hnd
        have hnd1 : k1.mounts.Nodup := by
          rw [hk1m]; exact hnd.erase p
        obtain ⟨hnd', hnm⟩ := hrest hnd1
        refine ⟨hnd', ?_⟩
        intro pd hpd
        rcases List.mem_cons.mp hpd with he | ht
        · subst he
          intro hmem
          have : p ∈ k1.mounts := hsub hmem
          rw [hk1m] at this
          exact hnd.not_mem_erase this
        · exact hnm pd ht

/-- Removing a path from the model mount table makes its mount id collapse
to its parent's: when `d ++ [c]` is not a mount point, the innermost mount
containing it is the innermost mount containing `d`. -/
theorem mntId_concat_not_mem (ms : List FsPath) (d : FsPath) (c : String)
    (h : (d ++ [c]) ∉ ms) : mntId ms (d ++ [c]) = mntId ms d := by
  unfold mntId
  have hfil : ms.filter (fun q => decide (q <+: d ++ [c])) =
      ms.filter (fun q => decide (q <+: d)) := by
    apply List.filter_congr
    intro q hq
    have hne : q ≠ d ++ [c] := fun e => h (e ▸ hq)
    apply decide_eq_decide.mpr
    constructor
    · intro hp
      rcases List.prefix_concat_iff.mp hp with he | hp'
      · exact absurd he hne
      · exact hp'
    · rintro ⟨t, rfl⟩
      exact ⟨t ++ [c], (List.append_assoc q t [c]).symm⟩
  rw [hfil]

/-- Claim C6: stop is idempotent on every sandbox (in any kernel state
whose mount table has no duplicate entries): after a first successful
`stop_session` the sandbox probes inactive, and a second `stop_session` is
a no-op that performs no unmount calls, returns success, and leaves the
kernel unchanged. -/
theorem stop_session_idempotent (k : Kernel) (session : FsPath) (k' : Kernel)
    (tr : List SysCall) (hnd : k.mounts.Nodup)
    (h : stop_session k session = (.ok k', tr)) :
    is_active_session (statxMnt k') session true = .ok false ∧
    stop_session k' session = (.ok k', []) := by
  unfold stop_session at h
  cases hp : is_active_session (statxMnt k) session true with
  | error r => rw [hp] at h; simp at h
  | ok b =>
    rw [hp] at h
    cases b with
    | false =>
      dsimp only at h
      simp only [Prod.mk.injEq, Except.ok.injEq] at h
      obtain ⟨hk, -⟩ := h
      subst hk
      exact ⟨hp, by simp [stop_session, hp]⟩
    | true =>
      dsimp only at h
      have hok : (unmountSeq k (stopTargets session)).1 = .ok k' := by rw [h]
      obtain ⟨hpres, hsub, hrest⟩ := unmountSeq_ok_state (stopTargets session) k k' hok
      obtain ⟨-, hnm⟩ := hrest hnd
      have hmerged : (session ++ ["merged"]) ∉ k'.mounts := by
        have hmem : ((session ++ ["merged"], false) : FsPath × Bool) ∈ stopTargets session := by
          simp [stopTargets]
        exact hnm _ hmem
      have hp1 : k.present (session ++ ["merged"]) = true := by
        by_contra hc
        simp only [Bool.not_eq_true] at hc
        simp [is_active_session, statxMnt, hc] at hp
      have hp2 : k.present session = true := by
        by_contra hc
        simp only [Bool.not_eq_true] at hc
        simp [is_active_session, statxMnt, hp1, hc] at hp
      have hid : mntId k'.mounts (session ++ ["merged"]) = mntId k'.mounts session :=
        mntId_concat_not_mem k'.mounts session "merged" hmerged
      have hprobe : is_active_session (statxMnt k') session true = .ok false := by
        simp [is_active_session, statxMnt, hpres, hp1, hp2, hid]
      exact ⟨hprobe, by simp [stop_session, hprobe]⟩

theorem stop_session_idempotent_witness :
    is_active_session (statxMnt { present := fun _ => true, mounts := [] }) ["s"] true
      = .ok false ∧
    stop_session { present := fun _ => true, mounts := [] } ["s"] =
      (.ok { present := fun _ => true, mounts := [] }, []) :=
  stop_session_idempotent stopK ["s"] { present := fun _ => true, mounts := [] }
    (stop_session stopK ["s"]).2 (by decide) rfl

/-! ### Deletion (`delete`, `delete_session`) -/

/-- Embedding of `delete_session` (`src/sessions.rs` lines 141-146):
`fuc_engine::remove_dir_all` recursively removes the session directory tree
(in the model, every path with the session directory as a prefix stops
existing); failure — in particular not-found — is wrapped with the code's
context string and `change_context`-ed to Io. -/
def delete_session (k : Kernel) (session : FsPath) : Except Report Kernel :=
  if k.present session then
    .ok { k with present := fun p => if session <+: p then false else k.present p }
  else
    .error { kind := .Io, msgs := ["Failed to delete directory " ++ dbgPath session] }

/-- The per-session body of `delete` (`src/sessions.rs` lines 54-59):
`stop_session` followed by `delete_session`. -/
def delete_one (k : Kernel) (session : FsPath) : Except Report Kernel :=
  match (stop_session k session).1 with
  | .error r => .error r
  | .ok k1 => delete_session k1 session

/-- Modelled from the spec: the exit-code mapping of section 6 (conventional
codes, I/O 74, config/setup 78, usage 64; only being non-zero is
user-visible).  The `Termination` impl of the converged crate is not under
src/. -/
def exitCode : Error → Nat
  | .Io => 74
  | .SessionNotFound => 74
  | .InvalidArgument => 64
  | .SetupRequired => 78

/-- Claim C5: `delete` on an existing sandbox performs stop then recursive
removal of the sandbox directory; applied twice to the same name, the first
application succeeds (removing the directory) and the second fails with a
`SessionNotFound` error and a non-zero exit code, because the probe in
`must_exist = true` mode runs first on the now-absent directory. -/
theorem delete_twice_spec (k : Kernel) (session : FsPath) (k1 : Kernel)
    (h : delete_one k session = .ok k1) :
    k1.present session = false ∧
    ∃ r, delete_one k1 session = .error r ∧ r.kind = .SessionNotFound ∧
      exitCode r.kind ≠ 0 := by
  unfold delete_one at h
  cases hs : (stop_session k session).1 with
  | error r => simp [hs] at h
  | ok k2 =>
    rw [hs] at h
    dsimp only at h
    unfold delete_session at h
    split at h
    case isTrue hpres =>
      have hk1p : k1.present = fun p => if session <+: p then false else k2.present p := by
        injection h with h
        rw [← h]
      have hpfx : session <+: session ++ ["merged"] := List.prefix_append _ _
      have hpm : k1.present (session ++ ["merged"]) = false := by
        rw [hk1p]; simp [hpfx]
      have hstop : stop_session k1 session =
          (.error { kind := Error.SessionNotFound
                    msgs := ["Failed to stat " ++ dbgPath (session ++ ["merged"])] }, []) := by
        simp [stop_session, is_active_session, statxMnt, hpm]
      refine ⟨by rw [hk1p]; simp [List.prefix_refl],
        { kind := Error.SessionNotFound
          msgs := ["Failed to stat " ++ dbgPath (session ++ ["merged"])] },
        by simp [delete_one, hstop], rfl, by simp [exitCode]⟩
    case isFalse hpres => cases h

/-- The kernel after deleting session `["s"]` from `allK`: every path under
the session directory stops existing. -/
def deletedK : Kernel :=
  { present := fun p => if ["s"] <+: p then false else allK.present p
    mounts := allK.mounts }

theorem delete_twice_spec_witness :
    deletedK.present ["s"] = false ∧
    ∃ r, delete_one deletedK ["s"] = .error r ∧ r.kind = .SessionNotFound ∧
      exitCode r.kind ≠ 0 :=
  delete_twice_spec allK ["s"] deletedK rfl

/-! ### Listing (`list`, `iter_all_sessions`) -/

/-- Outcome of `fs::read_dir` on the sessions directory: the entry names,
not-found (treated as an empty listing), or another I/O failure. -/
inductive ReadDirResult where
  | notFound
  | entries (names : List String)
  | failed
deriving DecidableEq, Repr

/-- How `list` (`src/sessions.rs` lines 32-41) renders one session name:
bracketed when active, bare otherwise. -/
def renderSession (active : Bool) (name : String) : String :=
  if active then "[" ++ name ++ "]" else name

/-- The printing loop of `list`: probe each entry with `must_exist = true`,
write `', '` before every entry but the first, and render the name by
activity.  Output to stdout is modelled as string accumulation. -/
def listLoop (k : Kernel) (dir : FsPath) :
    List String → Bool → String → Except Report String
  | [], _, acc => .ok acc
  | name :: rest, is_first, acc =>
    match is_active_session (statxMnt k) (dir ++ [name]) true with
    | .error r => .error r
    | .ok act =>
      listLoop k dir rest false
        (acc ++ (if is_first then "" else ", ") ++ renderSession act name)

/-- Embedding of `list` with `iter_all_sessions` (`src/sessions.rs` lines
25-48 and 148-163): a not-found on reading the sessions directory prints
nothing and succeeds; other read failures are Io; otherwise each entry is
probed and printed. -/
def list (k : Kernel) (sessionsDir : FsPath) (rd : ReadDirResult) :
    Except Report String :=
  match rd with
  | .notFound => .ok ""
  | .failed =>
    .error { kind := .Io, msgs := ["Failed to open directory " ++ dbgPath sessionsDir] }
  | .entries names => listLoop k sessionsDir names true ""

/-- Written from the spec wording (section 4.5): a single line of
comma-separated items. -/
def specCommaList : List String → String
  | [] => ""
  | [x] => x
  | x :: xs => x ++ ", " ++ specCommaList xs

/-- The tail of a comma-separated line: a leading `', '` before every
item. -/
def joinTail : List String → String
  | [] => ""
  | x :: xs => ", " ++ x ++ joinTail xs

theorem specCommaList_eq_joinTail (x : String) (xs : List String) :
    specCommaList (x :: xs) = x ++ joinTail xs := by
  induction xs generalizing x with
  | nil => simp [specCommaList, joinTail]
  | cons y ys ih =>
    simp only [specCommaList, joinTail, ih y, String.append_assoc]

theorem listLoop_false (k : Kernel) (dir : FsPath) (act : String → Bool) :
    ∀ (names : List String) (acc : String),
    (∀ n ∈ names, is_active_session (statxMnt k) (dir ++ [n]) true = .ok (act n)) →
    listLoop k dir names false acc =
      .ok (acc ++ joinTail (names.map (fun n => renderSession (act n) n))) := by
  intro names
  induction names with
  | nil => intro acc _; simp [listLoop, joinTail]
  | cons n rest ih =>
    intro acc h
    have hn := h n (List.mem_cons_self n rest)
    simp only [listLoop, hn]
    rw [ih _ (fun m hm => h m (List.mem_cons_of_mem n hm))]
    simp [joinTail, String.append_assoc]

/-- Claim C7: `list` prints a single line of comma-separated session names
in which every active sandbox is rendered bracketed as `[name]` and every
inactive one bare; when the sessions directory does not exist it prints
nothing and returns success. -/
theorem list_output_spec (k : Kernel) (sessionsDir : FsPath)
    (names : List String) (act : String → Bool)
    (h : ∀ n ∈ names,
      is_active_session (statxMnt k) (sessionsDir ++ [n]) true = .ok (act n)) :
    list k sessionsDir (.entries names) =
      .ok (specCommaList (names.map (fun n => renderSession (act n) n))) ∧
    list k sessionsDir .notFound = .ok "" := by
  refine ⟨?_, rfl⟩
  cases names with
  | nil => rfl
  | cons n rest =>
    have hn := h n (List.mem_cons_self n rest)
    simp only [list, listLoop, hn]
    rw [listLoop_false k sessionsDir act rest _
      (fun m hm => h m (List.mem_cons_of_mem n hm))]
    rw [List.map_cons, specCommaList_eq_joinTail]
    simp

/-- A kernel with two sessions under `/d`: session `a` has its overlay
mounted, session `b` does not. -/
def listK : Kernel :=
  { present := fun _ => true, mounts := [["d", "a", "merged"]] }

theorem list_output_spec_witness :
    list listK ["d"] (.entries ["a", "b"]) =
      .ok (specCommaList (["a", "b"].map
        (fun n => renderSession ((fun m => m == "a") n) n))) ∧
    list listK ["d"] .notFound = .ok "" := by
  refine list_output_spec listK ["d"] ["a", "b"] (fun m => m == "a") ?_
  intro n hn
  rcases List.mem_cons.mp hn with rfl | hn
  · rfl
  · rcases List.mem_cons.mp hn with rfl | hn
    · rfl
    · cases hn

/-! ### Privilege gate (`validate_permissions`, `src/run.rs`) -/

/-- Outcome of `set_thread_uid(Uid::ROOT)`: success, `Errno::PERM`, or any
other error. -/
inductive SetUidRootResult where
  | success
  | permissionDenied
  | failure
deriving DecidableEq, Repr

/-- The four capability bits `validate_permissions` inspects in the
process's effective set; any further capabilities in the set are irrelevant
to the check. -/
structure CapabilityFlags where
  chown : Bool
  dac_override : Bool
  sys_chroot : Bool
  sys_admin : Bool
deriving DecidableEq, Repr

/-- The check `effective.contains(CHOWN | DAC_OVERRIDE | SYS_CHROOT |
SYS_ADMIN)` (`src/run.rs` lines 83-88). -/
def containsRequired (c : CapabilityFlags) : Bool :=
  c.chown && c.dac_override && c.sys_chroot && c.sys_admin

/-- The process environment `validate_permissions` consults: the effective
UID, the result of trying to become root on the current thread, the
effective capability query, `argv[0]`, and `fs::canonicalize`. -/
structure PermEnv where
  uid_is_root : Bool
  set_thread_uid_root : SetUidRootResult
  capabilities : Except Unit CapabilityFlags
  argv0 : Option String
  canonicalize : String → Option String

/-- Piece of the setup message before the first interpolated binary path. -/
def setupMsg0 : String :=
  "Welcome to ForkFS!

Under the hood, ForkFS is implemented as a wrapper around OverlayFS. As a
consequence, elevated privileges are required and can be granted in one of
three ways (ordered by recommendation):

- $ sudo chown root "

/-- Piece of the setup message between the first and second interpolated
paths. -/
def setupMsg1 : String := " && sudo chmod u+s "

/-- Piece of the setup message between the second and third interpolated
paths. -/
def setupMsg2 : String :=
  "

  This transfers ownership of the `forkfs` binary to root and specifies that
  the binary should be executed as its owner (i.e. root). This is preferable
  because it allows you to pass along root privileges to the sandboxed
  program when necessary.

- $ sudo setcap cap_chown,cap_dac_override,cap_sys_chroot,cap_sys_admin+ep "

/-- Piece of the setup message after the last interpolated path. -/
def setupMsg3 : String :=
  "

  This grants `forkfs` precisely the capabilities it needs. Note that the
  `stay-root` flag will not work.

- $ sudo -E forkfs ...

  This simply invokes `forkfs` as root. This option is problematic because
  sudo alters the environment, causing PATH lookups to fail and changing
  your home directory.

  If you do go down this route, be consistent with your usage of `-E`. Bare
  `sudo` vs `sudo -E` will change the forkfs environment, meaning sessions
  that appear in `sudo` will not appear in `sudo -E` and vice versa.

PS: if you've already seen this message, then you probably upgraded to a new
version of ForkFS and will therefore need to rerun this setup."

/-- The setup message of `validate_permissions` (`src/run.rs` lines
102-134) with the resolved binary path interpolated at its three `{0}`
sites. -/
def setupMessage (path : String) : String :=
  setupMsg0 ++ path ++ setupMsg1 ++ path ++ setupMsg2 ++ path ++ setupMsg3

/-- The path shown in the setup message (`src/run.rs` lines 93-98):
`fs::canonicalize` of `argv[0]` (or of `"forkfs"` when absent), with
`"<path-to-forkfs>"` as fallback when canonicalisation fails. -/
def resolvedBinaryPath (env : PermEnv) : String :=
  match env.canonicalize (env.argv0.getD "forkfs") with
  | some p => p
  | none => "<path-to-forkfs>"

/-- Embedding of `validate_permissions` (`src/run.rs` lines 65-135): root
passes at once; otherwise try to become root on the current thread (success
passes, non-permission errors are Io); on permission-denied check the
effective capability set for the four required capabilities (a failing
query is Io); otherwise fail with `SetupRequired` carrying the setup
message. -/
def validate_permissions (env : PermEnv) : Except Report Unit :=
  if env.uid_is_root then .ok ()
  else
    match env.set_thread_uid_root with
    | .success => .ok ()
    | .failure => .error { kind := .Io, msgs := ["Failed to become root"] }
    | .permissionDenied =>
      match env.capabilities with
      | .error _ => .error { kind := .Io, msgs := ["Failed to retrieve capabilities"] }
      | .ok caps =>
        if containsRequired caps then .ok ()
        else
          .error { kind := .SetupRequired
                   msgs := [setupMessage (resolvedBinaryPath env)] }

/-- Claim C4: the privilege gate succeeds iff the effective user is root,
or setting the thread UID to root succeeds, or (after a permission-denied
escalation attempt) the effective capability set contains all of CHOWN,
DAC_OVERRIDE, SYS_CHROOT and SYS_ADMIN; and when both escalation paths fail
it raises `SetupRequired` — which is not the Io kind — with a message that
includes the canonical path to the running binary. -/
theorem validate_permissions_spec (env : PermEnv) :
    (validate_permissions env = .ok () ↔
      (env.uid_is_root = true ∨ env.set_thread_uid_root = .success ∨
        (env.set_thread_uid_root = .permissionDenied ∧
          ∃ c, env.capabilities = .ok c ∧ containsRequired c = true))) ∧
    (∀ (c : CapabilityFlags) (p : String),
      env.uid_is_root = false → env.set_thread_uid_root = .permissionDenied →
      env.capabilities = .ok c → containsRequired c = false →
      env.canonicalize (env.argv0.getD "forkfs") = some p →
      ∃ pre post, validate_permissions env =
        .error { kind := .SetupRequired, msgs := [pre ++ (p ++ post)] } ∧
        Error.SetupRequired ≠ Error.Io) := by
  constructor
  · constructor
    · intro hok
      unfold validate_permissions at hok
      cases hroot : env.uid_is_root with
      | true => exact Or.inl rfl
      | false =>
        rw [hroot] at hok
        simp only [Bool.false_eq_true, if_false] at hok
        cases hst : env.set_thread_uid_root with
        | success => exact Or.inr (Or.inl rfl)
        | failure => rw [hst] at hok; cases hok
        | permissionDenied =>
          rw [hst] at hok
          dsimp only at hok
          cases hcap : env.capabilities with
          | error u => rw [hcap] at hok; cases hok
          | ok c =>
            rw [hcap] at hok
            dsimp only at hok
            cases hcr : containsRequired c with
            | true => exact Or.inr (Or.inr ⟨rfl, c, rfl, hcr⟩)
            | false => rw [hcr] at hok; cases hok
    · intro h
      rcases h with hr | hs | ⟨hp, c, hc, hcr⟩
      · simp [validate_permissions, hr]
      · cases hroot : env.uid_is_root with
        | true => simp [validate_permissions, hroot]
        | false => simp [validate_permissions, hroot, hs]
      · cases hroot : env.uid_is_root with
        | true => simp [validate_permissions, hroot]
        | false => simp [validate_permissions, hroot, hp, hc, hcr]
  · intro c p hroot hst hcap hcr hcanon
    refine ⟨setupMsg0, setupMsg1 ++ (p ++ (setupMsg2 ++ (p ++ setupMsg3))), ?_, by decide⟩
    have hres : resolvedBinaryPath env = p := by
      simp [resolvedBinaryPath, hcanon]
    simp [validate_permissions, hroot, hst, hcap, hcr, hres, setupMessage,
      String.append_assoc]

/-- A concrete environment in which both escalation paths fail: non-root
UID, permission-denied on the thread-UID change, and an effective set
missing SYS_CHROOT and SYS_ADMIN. -/
def permEnvW : PermEnv :=
  { uid_is_root := false
    set_thread_uid_root := .permissionDenied
    capabilities := .ok { chown := true, dac_override := true
                          sys_chroot := false, sys_admin := false }
    argv0 := some "/usr/local/bin/forkfs"
    canonicalize := fun s => some s }

theorem validate_permissions_spec_witness :
    ∃ pre post, validate_permissions permEnvW =
      .error { kind := .SetupRequired
               msgs := [pre ++ ("/usr/local/bin/forkfs" ++ post)] } ∧
      Error.SetupRequired ≠ Error.Io :=
  (validate_permissions_spec permEnvW).2
    { chown := true, dac_override := true, sys_chroot := false, sys_admin := false }
    "/usr/local/bin/forkfs" rfl rfl rfl rfl rfl

end Forkfs
